import Mathlib

/-!
Verification of the slaughter_vote repository (a theme-voting system) against
its natural-language specification.  The development shallowly embeds the two
Rust crates:

* `crates/server/src/main.rs` — JWT verification (`verify_jwt`), next-theme
  selection (`get_next_theme`), vote recording (`submit_vote`) and the error
  responses (`AppError`).  The Postgres tables `themes` and `votes` are
  modelled as Lean lists; the `ON CONFLICT` upsert and the SQL queries are
  translated statement by statement.  `ORDER BY RANDOM() LIMIT 1` is modelled
  by an arbitrary choice index into the candidate list.
* `crates/client/src/main.rs` — the OAuth callback handler
  (`callback_handler`) writing into the shared token cell, and the polling
  loop of `authenticate` with its 500 ms interval and 120 s deadline,
  modelled in idealized discrete time (poll `k` happens `500·(k+1)` ms after
  handshake start).
-/

namespace SlaughterVote

/-! ## Server data model (crates/server/src/models.rs and the DB schema) -/

/-- `Theme` row: `{id: i32, content: String}` (models.rs). -/
structure Theme where
  id : Int
  content : String
deriving DecidableEq, Repr

/-- A row of the `votes` table.  The serial surrogate `id` plays no role in
the in-scope logic and is omitted; `created_at` is a timestamp modelled as an
integer. -/
structure VoteRow where
  user_id : String
  theme_id : Int
  vote_type : String
  created_at : Int
deriving DecidableEq, Repr

/-- `VoteRequest` body: `{theme_id, vote_type}` (models.rs). -/
structure VoteRequest where
  theme_id : Int
  vote_type : String
deriving DecidableEq, Repr

/-- `ThemeResponse` body: `{theme, total, seen}` (models.rs). -/
structure ThemeResponse where
  theme : Option Theme
  total : Int
  seen : Int
deriving DecidableEq, Repr

/-- The upsert key of a `votes` row: the `(user_id, theme_id)` pair on which
the table carries its unique constraint (`ON CONFLICT (user_id, theme_id)`). -/
def voteKey (r : VoteRow) : String × Int := (r.user_id, r.theme_id)

/-- The `votes` table's unique constraint on `(user_id, theme_id)`: all rows
have pairwise distinct keys. -/
def keysDistinct (votes : List VoteRow) : Prop :=
  votes.Pairwise (fun a b => voteKey a ≠ voteKey b)

instance (votes : List VoteRow) : Decidable (keysDistinct votes) :=
  List.instDecidablePairwise votes

/-- The rows of the `votes` table carrying a given `(user_id, theme_id)`
key: `SELECT * FROM votes WHERE user_id = $1 AND theme_id = $2`. -/
def rowsFor (votes : List VoteRow) (user_id : String) (theme_id : Int) :
    List VoteRow :=
  votes.filter (fun r => voteKey r = (user_id, theme_id))

/-! ## Auth middleware (`verify_jwt`, server main.rs lines 28–50) -/

/-- Decoded JWT claims as used by `verify_jwt`: subject and expiry. -/
structure Claims where
  sub : String
  exp : Int
deriving DecidableEq, Repr

/-- `AppError` (server main.rs lines 237–241).  The `Database` payload is
irrelevant to the response mapping and omitted. -/
inductive AppError where
  | Unauthorized : AppError
  | BadRequest : String → AppError
  | Database : AppError
deriving DecidableEq, Repr

/-- `impl IntoResponse for AppError` (server main.rs lines 249–268): status
code and message of the HTTP response. -/
def AppError.into_response : AppError → Nat × String
  | .Unauthorized => (401, "Unauthorized - Invalid or missing JWT token")
  | .BadRequest msg => (400, msg)
  | .Database => (500, "Database error")

/-- `is_expired` (server main.rs lines 41–43): `Utc::now().timestamp() > exp`. -/
def is_expired (now exp : Int) : Bool := now > exp

/-- Rust's `auth_header.strip_prefix("Bearer ")`: the remainder of the
header after the `"Bearer "` prefix, or `none` when the header does not
start with it.  Strings are handled through their character lists. -/
def stripBearer (h : String) : Option String :=
  if "Bearer ".data.isPrefixOf h.data then
    some (String.mk (h.data.drop "Bearer ".data.length))
  else
    none

/-- `verify_jwt` (server main.rs lines 28–50).  `auth_header` is the
`Authorization` header if present; `from_token` models the external
`Claims::from_token` verification against the JWKS cache (returning the
decoded claims or a failure); `now` is `Utc::now().timestamp()`. -/
def verify_jwt (auth_header : Option String) (from_token : String → Option Claims)
    (now : Int) : Except AppError String :=
  match auth_header with
  | none => .error (.BadRequest "no auth")
  | some h =>
    match stripBearer h with
    | none => .error (.BadRequest "no bearer")
    | some token =>
      match from_token token with
      | none => .error .Unauthorized
      | some claims =>
        if is_expired now claims.exp then .error .Unauthorized
        else .ok claims.sub

/-! ## Theme selection (`get_next_theme`, server main.rs lines 111–151) -/

/-- `SELECT theme_id FROM votes WHERE user_id = $1` (main.rs lines 123–127):
the theme ids this user has already voted on, in table order. -/
def votedThemeIds (votes : List VoteRow) (user_id : String) : List Int :=
  (votes.filter (fun r => r.user_id = user_id)).map (fun r => r.theme_id)

/-- `ORDER BY RANDOM() LIMIT 1` with `fetch_optional`: one arbitrarily chosen
row of the candidate list if it is nonempty, otherwise `none`.  The random
draw is modelled by the choice index `rand`. -/
def pickRandom (candidates : List Theme) (rand : Nat) : Option Theme :=
  candidates.get? (rand % candidates.length)

/-- `get_next_theme` (main.rs lines 111–151), after `verify_jwt` has yielded
`user_id`.  `themes`/`votes` are the table contents and `rand` the random
draw of the `ORDER BY RANDOM()` query. -/
def get_next_theme (themes : List Theme) (votes : List VoteRow)
    (user_id : String) (rand : Nat) : ThemeResponse :=
  let total_themes : Int := themes.length
  let voted_theme_ids := votedThemeIds votes user_id
  let theme : Option Theme :=
    if voted_theme_ids.isEmpty then
      pickRandom themes rand
    else
      pickRandom (themes.filter (fun t => ¬ t.id ∈ voted_theme_ids)) rand
  { theme := theme, total := total_themes, seen := voted_theme_ids.length }

/-! ## Vote recording (`submit_vote`, server main.rs lines 153–190) -/

/-- The `INSERT ... ON CONFLICT (user_id, theme_id) DO UPDATE SET vote_type =
$3, created_at = NOW()` statement (main.rs lines 177–187): if a row with the
key exists its `vote_type` and `created_at` are overwritten, otherwise a new
row is appended.  `now` is the value of `NOW()`. -/
def upsertVote (votes : List VoteRow) (user_id : String) (theme_id : Int)
    (vote_type : String) (now : Int) : List VoteRow :=
  if votes.any (fun r => voteKey r = (user_id, theme_id)) then
    votes.map (fun r =>
      if voteKey r = (user_id, theme_id) then
        { r with vote_type := vote_type, created_at := now }
      else r)
  else
    votes ++ [⟨user_id, theme_id, vote_type, now⟩]

/-- `submit_vote` (main.rs lines 153–190), after `verify_jwt` has yielded
`user_id`.  Returns the handler's result together with the `votes` table
after the request, so that failing requests visibly leave storage unchanged.
`.ok` models the `StatusCode::OK` response. -/
def submit_vote (themes : List Theme) (votes : List VoteRow) (user_id : String)
    (vote_req : VoteRequest) (now : Int) : Except AppError Unit × List VoteRow :=
  if ¬ vote_req.vote_type ∈ ["yes", "no", "skip"] then
    (.error (.BadRequest "Invalid vote type"), votes)
  else
    let theme_exists := themes.any (fun t => t.id = vote_req.theme_id)
    if ¬ theme_exists then
      (.error (.BadRequest "Theme not found"), votes)
    else
      (.ok (), upsertVote votes user_id vote_req.theme_id vote_req.vote_type now)

/-! ## Client: OAuth callback capture (crates/client/src/main.rs) -/

/-- `CallbackParams` (client main.rs lines 32–36): the query parameters of a
`GET /callback` request. -/
structure CallbackParams where
  access_token : Option String
  error : Option String
deriving DecidableEq, Repr

/-- The three HTML documents `callback_handler` can return, abstracted from
their markup: the bare "failed" body on a poisoned lock, the error page
embedding the provider's error description, and the success page whose
script resubmits the fragment token. -/
inductive CallbackPage where
  | failed : CallbackPage
  | errorPage : String → CallbackPage
  | successPage : CallbackPage
deriving DecidableEq, Repr

/-- `callback_handler` (client main.rs lines 138–264).  The token store is
the `Arc<Mutex<Option<String>>>` cell; `lock_ok` is whether `lock()`
succeeds (it fails only on poisoning).  Returns the new store contents, the
page, and whether this invocation wrote the cell.  Note the handler assigns
`*store = params.access_token` unconditionally before inspecting `error`. -/
def callback_handler (params : CallbackParams) (lock_ok : Bool)
    (store : Option String) : Option String × CallbackPage × Bool :=
  if ¬ lock_ok then
    (store, .failed, false)
  else
    let store' := params.access_token
    match params.error with
    | some error => (store', .errorPage error, true)
    | none => (store', .successPage, true)

/-- One handshake's sequence of callback-handler invocations, applied to an
initial store: returns the final store contents and how many invocations
performed a write.  Each list entry is the request's query parameters
together with whether its `lock()` succeeded. -/
def runCallbacks (reqs : List (CallbackParams × Bool)) (store : Option String) :
    Option String × Nat :=
  match reqs with
  | [] => (store, 0)
  | (params, lock_ok) :: rest =>
    let r := callback_handler params lock_ok store
    let rec' := runCallbacks rest r.1
    (rec'.1, (if r.2.2 then 1 else 0) + rec'.2)

/-! ## Client: polling wait (`authenticate`, client main.rs lines 118–135)

The loop sleeps 500 ms, reads the cell, returns the token if present,
otherwise bails with the timeout error once `start.elapsed() > timeout`
(120 s).  In idealized discrete time poll `k` (k = 0, 1, …) happens at
`500·(k+1)` ms after handshake start, and `cellAt k` is the cell contents it
observes. -/

/-- `tokio::time::Duration::from_secs(120)` in milliseconds. -/
def deadlineMs : Nat := 120000

/-- The fixed poll interval, `Duration::from_millis(500)`. -/
def pollIntervalMs : Nat := 500

/-- Elapsed milliseconds at poll `k` (after `k + 1` sleeps). -/
def pollTime (k : Nat) : Nat := pollIntervalMs * (k + 1)

/-- Outcome of `authenticate`'s wait loop: the token, or the
"Authentication timeout (2 minutes)" bailout. -/
inductive AuthResult where
  | token : String → AuthResult
  | timeout : AuthResult
deriving DecidableEq, Repr

/-- The poll loop of `authenticate` from poll `k` on: return the stored
token if the cell is full, otherwise bail with the timeout once the elapsed
time exceeds the deadline.  Also returns the index of the exiting poll. -/
def authLoop (cellAt : Nat → Option String) (k : Nat) : AuthResult × Nat :=
  match cellAt k with
  | some t => (.token t, k)
  | none =>
    if pollTime k > deadlineMs then (.timeout, k)
    else authLoop cellAt (k + 1)
termination_by deadlineMs + 1 - pollTime k
decreasing_by
  simp only [pollTime, pollIntervalMs, deadlineMs] at *
  omega

/-- `authenticate`'s wait for the token (client main.rs lines 118–135),
starting at the first poll. -/
def authenticate (cellAt : Nat → Option String) : AuthResult × Nat :=
  authLoop cellAt 0

/-! ## Theorems -/

/-! ### Helper lemmas on the vote upsert -/

theorem voteKey_updateRow (u : String) (t : Int) (v : String) (now : Int) (r : VoteRow) :
    voteKey (if voteKey r = (u, t) then { r with vote_type := v, created_at := now } else r)
      = voteKey r := by
  split <;> rfl

theorem updateRow_eq (u : String) (t : Int) (v : String) (now : Int) (r : VoteRow)
    (h : voteKey r = (u, t)) :
    ({ r with vote_type := v, created_at := now } : VoteRow) = ⟨u, t, v, now⟩ := by
  simp only [voteKey, Prod.mk.injEq] at h
  cases r
  simp_all

theorem rowsFor_map_update_nil (as : List VoteRow) (u : String) (t : Int) (v : String)
    (now : Int) (h : ∀ r ∈ as, voteKey r ≠ (u, t)) :
    rowsFor (as.map (fun r =>
      if voteKey r = (u, t) then { r with vote_type := v, created_at := now } else r)) u t
      = [] := by
  induction as with
  | nil => rfl
  | cons a as ih =>
    have ha := h a (List.mem_cons_self a as)
    simp only [rowsFor, List.map_cons, List.filter_cons]
    rw [if_neg ha]
    simp only [ha, decide_False, if_false]
    exact ih (fun r hr => h r (List.mem_cons_of_mem a hr))

theorem rowsFor_map_update (votes : List VoteRow) (u : String) (t : Int) (v : String)
    (now : Int) (hd : keysDistinct votes)
    (hany : votes.any (fun r => voteKey r = (u, t)) = true) :
    rowsFor (votes.map (fun r =>
      if voteKey r = (u, t) then { r with vote_type := v, created_at := now } else r)) u t
      = [⟨u, t, v, now⟩] := by
  induction votes with
  | nil => simp at hany
  | cons a as ih =>
    rw [keysDistinct, List.pairwise_cons] at hd
    obtain ⟨ha, has⟩ := hd
    by_cases hak : voteKey a = (u, t)
    · simp only [rowsFor, List.map_cons, List.filter_cons]
      rw [if_pos hak]
      have hkey : voteKey ({ a with vote_type := v, created_at := now } : VoteRow) = (u, t) := hak
      simp only [hkey, decide_True, if_true]
      have hrest : ∀ r ∈ as, voteKey r ≠ (u, t) := by
        intro r hr hcontra
        exact ha r hr (hak.trans hcontra.symm)
      have := rowsFor_map_update_nil as u t v now hrest
      simp only [rowsFor] at this
      rw [this, updateRow_eq u t v now a hak]
    · simp only [rowsFor, List.map_cons, List.filter_cons]
      rw [if_neg hak]
      simp only [hak, decide_False, if_false]
      have hany' : as.any (fun r => voteKey r = (u, t)) = true := by
        simp only [List.any_cons, hak, decide_False, Bool.false_or] at hany
        exact hany
      exact ih has hany'

theorem rowsFor_append_new (votes : List VoteRow) (u : String) (t : Int) (v : String)
    (now : Int) (hnone : votes.any (fun r => voteKey r = (u, t)) = false) :
    rowsFor (votes ++ [⟨u, t, v, now⟩]) u t = [⟨u, t, v, now⟩] := by
  simp only [rowsFor, List.filter_append]
  have h1 : votes.filter (fun r => decide (voteKey r = (u, t))) = [] := by
    rw [List.filter_eq_nil_iff]
    intro r hr
    simp only [List.any_eq_false] at hnone
    simpa using hnone r hr
  rw [h1]
  simp [voteKey]

theorem rowsFor_upsertVote (votes : List VoteRow) (u : String) (t : Int) (v : String)
    (now : Int) (hd : keysDistinct votes) :
    rowsFor (upsertVote votes u t v now) u t = [⟨u, t, v, now⟩] := by
  by_cases hb : votes.any (fun r => voteKey r = (u, t)) = true
  · rw [upsertVote, if_pos hb]
    exact rowsFor_map_update votes u t v now hd hb
  · rw [upsertVote, if_neg hb]
    exact rowsFor_append_new votes u t v now (Bool.eq_false_iff.mpr hb)

theorem keysDistinct_upsertVote (votes : List VoteRow) (u : String) (t : Int) (v : String)
    (now : Int) (hd : keysDistinct votes) :
    keysDistinct (upsertVote votes u t v now) := by
  by_cases hb : votes.any (fun r => voteKey r = (u, t)) = true
  · rw [upsertVote, if_pos hb, keysDistinct, List.pairwise_map]
    refine hd.imp ?_
    intro a b hab
    rw [voteKey_updateRow, voteKey_updateRow]
    exact hab
  · rw [upsertVote, if_neg hb, keysDistinct, List.pairwise_append]
    refine ⟨hd, List.pairwise_singleton _ _, ?_⟩
    intro a ha b hb'
    have hb2 : b = ⟨u, t, v, now⟩ := by simpa using hb'
    subst hb2
    intro hEq
    apply hb
    rw [List.any_eq_true]
    exact ⟨a, ha, by simpa using hEq⟩

/-! ### Vote recording claims -/

/-- C2: `record` is an upsert keyed on `(user_id, theme_id)`: for every user
`u`, theme `t` and valid vote types `x` then `y`, recording `(u, t, x)`
followed by `(u, t, y)` succeeds both times and leaves exactly one vote row
for `(u, t)`, with `vote_type = y` and `created_at` the later write's time;
the unique-key invariant is preserved, so no second row for the pair is ever
created. -/
theorem submit_vote_upsert (themes : List Theme) (votes : List VoteRow)
    (u : String) (t : Int) (x y : String) (now1 now2 : Int)
    (hd : keysDistinct votes)
    (hx : x ∈ ["yes", "no", "skip"]) (hy : y ∈ ["yes", "no", "skip"])
    (hth : themes.any (fun th => th.id = t) = true) :
    (submit_vote themes votes u ⟨t, x⟩ now1).1 = .ok () ∧
    (submit_vote themes (submit_vote themes votes u ⟨t, x⟩ now1).2 u ⟨t, y⟩ now2).1 = .ok () ∧
    rowsFor (submit_vote themes (submit_vote themes votes u ⟨t, x⟩ now1).2 u ⟨t, y⟩ now2).2 u t
      = [⟨u, t, y, now2⟩] ∧
    keysDistinct (submit_vote themes (submit_vote themes votes u ⟨t, x⟩ now1).2 u ⟨t, y⟩ now2).2 := by
  have h1 : submit_vote themes votes u ⟨t, x⟩ now1 = (.ok (), upsertVote votes u t x now1) := by
    simp [submit_vote, hx, hth]
  have hd1 : keysDistinct (upsertVote votes u t x now1) :=
    keysDistinct_upsertVote votes u t x now1 hd
  have h2 : submit_vote themes (upsertVote votes u t x now1) u ⟨t, y⟩ now2
      = (.ok (), upsertVote (upsertVote votes u t x now1) u t y now2) := by
    simp [submit_vote, hy, hth]
  have e1 : (submit_vote themes votes u ⟨t, x⟩ now1).2 = upsertVote votes u t x now1 := by
    rw [h1]
  refine ⟨by rw [h1], ?_, ?_, ?_⟩
  · rw [e1, h2]
  · rw [e1, h2]
    exact rowsFor_upsertVote (upsertVote votes u t x now1) u t y now2 hd1
  · rw [e1, h2]
    exact keysDistinct_upsertVote (upsertVote votes u t x now1) u t y now2 hd1

/-- Witness for C2 on a one-theme catalog: voting yes then no leaves the
single row `(u, 1, no)` stamped with the second write's time. -/
theorem submit_vote_upsert_witness :
    (submit_vote [⟨1, "t"⟩] [] "u" ⟨1, "yes"⟩ 0).1 = .ok () ∧
    (submit_vote [⟨1, "t"⟩] (submit_vote [⟨1, "t"⟩] [] "u" ⟨1, "yes"⟩ 0).2 "u" ⟨1, "no"⟩ 1).1 = .ok () ∧
    rowsFor (submit_vote [⟨1, "t"⟩] (submit_vote [⟨1, "t"⟩] [] "u" ⟨1, "yes"⟩ 0).2 "u" ⟨1, "no"⟩ 1).2 "u" 1
      = [⟨"u", 1, "no", 1⟩] ∧
    keysDistinct (submit_vote [⟨1, "t"⟩] (submit_vote [⟨1, "t"⟩] [] "u" ⟨1, "yes"⟩ 0).2 "u" ⟨1, "no"⟩ 1).2 :=
  submit_vote_upsert [⟨1, "t"⟩] [] "u" 1 "yes" "no" 0 1
    (by decide) (by decide) (by decide) (by decide)

/-- C5: for every authenticated request, a `vote_type` outside
`{yes, no, skip}` fails with the invalid-type error and a `theme_id`
matching no theme fails with the unknown-theme error; in both cases the
votes table is returned unchanged.  (The code reports these as
`AppError::BadRequest "Invalid vote type"` / `"Theme not found"`, the
concrete form of the spec's `VoteError::InvalidType` /
`VoteError::UnknownTheme`.) -/
theorem submit_vote_rejects (themes : List Theme) (votes : List VoteRow)
    (u : String) (req : VoteRequest) (now : Int) :
    (¬ req.vote_type ∈ ["yes", "no", "skip"] →
      submit_vote themes votes u req now = (.error (.BadRequest "Invalid vote type"), votes)) ∧
    (req.vote_type ∈ ["yes", "no", "skip"] →
      themes.any (fun th => th.id = req.theme_id) = false →
      submit_vote themes votes u req now = (.error (.BadRequest "Theme not found"), votes)) := by
  constructor
  · intro h
    simp [submit_vote, h]
  · intro h1 h2
    simp [submit_vote, h1, h2]

/-- Witness for C5: an invalid vote type and an unknown theme id are both
rejected without touching the (empty) votes table. -/
theorem submit_vote_rejects_witness :
    submit_vote [⟨1, "t"⟩] [] "u" ⟨1, "maybe"⟩ 0 = (.error (.BadRequest "Invalid vote type"), []) ∧
    submit_vote [⟨1, "t"⟩] [] "u" ⟨2, "yes"⟩ 0 = (.error (.BadRequest "Theme not found"), []) :=
  ⟨(submit_vote_rejects [⟨1, "t"⟩] [] "u" ⟨1, "maybe"⟩ 0).1 (by decide),
   (submit_vote_rejects [⟨1, "t"⟩] [] "u" ⟨2, "yes"⟩ 0).2 (by decide) (by decide)⟩

/-! ### Helper lemmas on theme selection -/

theorem pickRandom_mem (l : List Theme) (rand : Nat) (th : Theme)
    (h : pickRandom l rand = some th) : th ∈ l := by
  unfold pickRandom at h
  exact List.get?_mem h

theorem pickRandom_eq_none_iff (l : List Theme) (rand : Nat) :
    pickRandom l rand = none ↔ l = [] := by
  cases l with
  | nil => simp [pickRandom]
  | cons a as =>
    simp only [pickRandom]
    constructor
    · intro h
      rw [List.get?_eq_none] at h
      have hlt : rand % (a :: as).length < (a :: as).length :=
        Nat.mod_lt _ (by simp)
      omega
    · intro h
      exact absurd h (by simp)

theorem pickRandom_isSome (l : List Theme) (rand : Nat) (hl : l ≠ []) :
    ∃ th, pickRandom l rand = some th := by
  cases hp : pickRandom l rand with
  | none => exact absurd ((pickRandom_eq_none_iff l rand).mp hp) hl
  | some th => exact ⟨th, rfl⟩

theorem votedThemeIds_nodup (votes : List VoteRow) (u : String)
    (hd : keysDistinct votes) : (votedThemeIds votes u).Nodup := by
  induction votes with
  | nil => simp [votedThemeIds]
  | cons a as ih =>
    rw [keysDistinct, List.pairwise_cons] at hd
    obtain ⟨ha, has⟩ := hd
    by_cases hu : a.user_id = u
    · simp only [votedThemeIds, List.filter_cons]
      rw [if_pos (by simpa using hu)]
      simp only [List.map_cons, List.nodup_cons]
      refine ⟨?_, by simpa [votedThemeIds] using ih has⟩
      intro hmem
      rw [List.mem_map] at hmem
      obtain ⟨r, hr, hteq⟩ := hmem
      rw [List.mem_filter] at hr
      obtain ⟨hras, hru⟩ := hr
      have hru' : r.user_id = u := by simpa using hru
      exact ha r hras (by simp [voteKey, hu, hru', hteq])
    · simp only [votedThemeIds, List.filter_cons]
      rw [if_neg (by simpa using hu)]
      simpa [votedThemeIds] using ih has

/-! ### Theme selection claims -/

/-- C3: for a user whose set of voted themes is `S`, `get_next_theme` never
returns a theme of `S`, and while at least one catalog theme outside `S`
exists one such theme is returned — whatever the random draw. -/
theorem get_next_theme_unseen (themes : List Theme) (votes : List VoteRow)
    (u : String) (rand : Nat) :
    (∀ th, (get_next_theme themes votes u rand).theme = some th →
      ¬ th.id ∈ votedThemeIds votes u) ∧
    ((∃ th ∈ themes, ¬ th.id ∈ votedThemeIds votes u) →
      ∃ th, (get_next_theme themes votes u rand).theme = some th ∧
        ¬ th.id ∈ votedThemeIds votes u) := by
  constructor
  · intro th hth
    simp only [get_next_theme] at hth
    by_cases hv : (votedThemeIds votes u).isEmpty
    · rw [List.isEmpty_iff] at hv
      rw [hv]
      simp
    · rw [if_neg (by simpa using hv)] at hth
      have := pickRandom_mem _ rand th hth
      rw [List.mem_filter] at this
      simpa using this.2
  · rintro ⟨th0, hth0, hnot0⟩
    simp only [get_next_theme]
    by_cases hv : (votedThemeIds votes u).isEmpty
    · rw [if_pos (by simpa using hv)]
      rw [List.isEmpty_iff] at hv
      obtain ⟨th, hth⟩ := pickRandom_isSome themes rand
        (by intro hnil; rw [hnil] at hth0; exact (List.not_mem_nil th0) hth0)
      exact ⟨th, hth, by rw [hv]; simp⟩
    · rw [if_neg (by simpa using hv)]
      have hfmem : th0 ∈ themes.filter (fun t => ¬ t.id ∈ votedThemeIds votes u) :=
        List.mem_filter.mpr ⟨hth0, by simpa using hnot0⟩
      obtain ⟨th, hth⟩ := pickRandom_isSome _ rand (List.ne_nil_of_mem hfmem)
      refine ⟨th, hth, ?_⟩
      have := pickRandom_mem _ rand th hth
      rw [List.mem_filter] at this
      simpa using this.2

/-- Witness for C3: catalog `{1, 2}`, user voted on theme 1 — the selector
returns an unvoted theme (theme 2), never the voted one. -/
theorem get_next_theme_unseen_witness :
    (¬ (2 : Int) ∈ votedThemeIds [⟨"u", 1, "yes", 0⟩] "u") ∧
    (∃ th, (get_next_theme [⟨1, "a"⟩, ⟨2, "b"⟩] [⟨"u", 1, "yes", 0⟩] "u" 0).theme = some th ∧
      ¬ th.id ∈ votedThemeIds [⟨"u", 1, "yes", 0⟩] "u") :=
  ⟨(get_next_theme_unseen [⟨1, "a"⟩, ⟨2, "b"⟩] [⟨"u", 1, "yes", 0⟩] "u" 0).1 ⟨2, "b"⟩ (by decide),
   (get_next_theme_unseen [⟨1, "a"⟩, ⟨2, "b"⟩] [⟨"u", 1, "yes", 0⟩] "u" 0).2
     ⟨⟨2, "b"⟩, by decide, by decide⟩⟩

/-- C4: `get_next_theme` reports `seen` = number of distinct themes the user
has voted on (any vote type), `total` = catalog size, and `theme = none`
exactly when the catalog minus the seen set is empty — in particular (under
the key-uniqueness and foreign-key invariants of the store, and distinct
catalog ids) whenever `seen = total`.  The handler returns this as a
successful `ThemeResponse`, not an error. -/
theorem get_next_theme_counts (themes : List Theme) (votes : List VoteRow)
    (u : String) (rand : Nat)
    (hd : keysDistinct votes)
    (hFK : ∀ r ∈ votes, r.user_id = u → r.theme_id ∈ themes.map Theme.id)
    (hids : (themes.map Theme.id).Nodup) :
    (get_next_theme themes votes u rand).seen = ((votedThemeIds votes u).dedup.length : Int) ∧
    (get_next_theme themes votes u rand).total = (themes.length : Int) ∧
    ((get_next_theme themes votes u rand).theme = none ↔
      themes.filter (fun th => ¬ th.id ∈ votedThemeIds votes u) = []) ∧
    ((get_next_theme themes votes u rand).seen = (get_next_theme themes votes u rand).total →
      (get_next_theme themes votes u rand).theme = none) := by
  have hnodup : (votedThemeIds votes u).Nodup := votedThemeIds_nodup votes u hd
  have hdedup : (votedThemeIds votes u).dedup = votedThemeIds votes u :=
    List.dedup_eq_self.mpr hnodup
  have hseen : (get_next_theme themes votes u rand).seen =
      ((votedThemeIds votes u).length : Int) := by
    simp [get_next_theme]
  have htotal : (get_next_theme themes votes u rand).total = (themes.length : Int) := by
    simp [get_next_theme]
  have hiff : (get_next_theme themes votes u rand).theme = none ↔
      themes.filter (fun th => ¬ th.id ∈ votedThemeIds votes u) = [] := by
    simp only [get_next_theme]
    by_cases hv : (votedThemeIds votes u).isEmpty
    · rw [if_pos (by simpa using hv)]
      rw [List.isEmpty_iff] at hv
      rw [hv, pickRandom_eq_none_iff]
      simp
    · rw [if_neg (by simpa using hv)]
      exact pickRandom_eq_none_iff _ rand
  refine ⟨by rw [hseen, hdedup], htotal, hiff, ?_⟩
  intro hcnt
  rw [hseen, htotal] at hcnt
  have hlen : (votedThemeIds votes u).length = themes.length := by exact_mod_cast hcnt
  have hsub : ∀ x ∈ votedThemeIds votes u, x ∈ themes.map Theme.id := by
    intro x hx
    unfold votedThemeIds at hx
    rw [List.mem_map] at hx
    obtain ⟨r, hr, hxeq⟩ := hx
    rw [List.mem_filter] at hr
    exact hxeq ▸ hFK r hr.1 (by simpa using hr.2)
  have hcard1 : (votedThemeIds votes u).toFinset.card = themes.length := by
    rw [List.toFinset_card_of_nodup hnodup, hlen]
  have hcard2 : (themes.map Theme.id).toFinset.card = themes.length := by
    rw [List.toFinset_card_of_nodup hids, List.length_map]
  have hfin : (votedThemeIds votes u).toFinset = (themes.map Theme.id).toFinset := by
    apply Finset.eq_of_subset_of_card_le
    · intro x hx
      rw [List.mem_toFinset] at hx
      rw [List.mem_toFinset]
      exact hsub x hx
    · rw [hcard1, hcard2]
  rw [hiff, List.filter_eq_nil_iff]
  intro th hth
  have hidmem : th.id ∈ (themes.map Theme.id).toFinset := by
    rw [List.mem_toFinset, List.mem_map]
    exact ⟨th, hth, rfl⟩
  rw [← hfin, List.mem_toFinset] at hidmem
  simp [hidmem]

/-- Witness for C4 on a one-theme catalog the user has exhausted: `seen = 1
= total` and the selector reports `theme = none`. -/
theorem get_next_theme_counts_witness :
    (get_next_theme [⟨1, "a"⟩] [⟨"u", 1, "skip", 0⟩] "u" 0).seen =
      ((votedThemeIds [⟨"u", 1, "skip", 0⟩] "u").dedup.length : Int) ∧
    (get_next_theme [⟨1, "a"⟩] [⟨"u", 1, "skip", 0⟩] "u" 0).total = ((1 : Nat) : Int) ∧
    ((get_next_theme [⟨1, "a"⟩] [⟨"u", 1, "skip", 0⟩] "u" 0).theme = none ↔
      [⟨1, "a"⟩].filter (fun th : Theme => ¬ th.id ∈ votedThemeIds [⟨"u", 1, "skip", 0⟩] "u") = []) ∧
    ((get_next_theme [⟨1, "a"⟩] [⟨"u", 1, "skip", 0⟩] "u" 0).seen =
        (get_next_theme [⟨1, "a"⟩] [⟨"u", 1, "skip", 0⟩] "u" 0).total →
      (get_next_theme [⟨1, "a"⟩] [⟨"u", 1, "skip", 0⟩] "u" 0).theme = none) := by
  have h := get_next_theme_counts [⟨1, "a"⟩] [⟨"u", 1, "skip", 0⟩] "u" 0
    (by decide) (by decide) (by decide)
  simpa using h

/-- C7: for every request carrying a bearer token, a token whose
verification fails and a token whose expiry is in the past produce the
identical outcome at the public interface: the single `Unauthorized` result
(and hence the identical 401 response), with nothing distinguishing the two
causes to the caller. -/
theorem verify_jwt_unauthorized_uniform (h1 h2 t1 t2 : String)
    (from_token : String → Option Claims) (now : Int) (c : Claims)
    (hs1 : stripBearer h1 = some t1) (hs2 : stripBearer h2 = some t2)
    (hfail : from_token t1 = none)
    (hok : from_token t2 = some c) (hexp : now > c.exp) :
    verify_jwt (some h1) from_token now = .error .Unauthorized ∧
    verify_jwt (some h2) from_token now = .error .Unauthorized ∧
    verify_jwt (some h1) from_token now = verify_jwt (some h2) from_token now ∧
    (AppError.Unauthorized).into_response = (401, "Unauthorized - Invalid or missing JWT token") := by
  simp [verify_jwt, is_expired, hs1, hs2, hfail, hok, hexp, AppError.into_response]

/-- Witness for C7 at a concrete verifier, headers and clock. -/
theorem verify_jwt_unauthorized_uniform_witness :
    verify_jwt (some "Bearer bad") (fun t => if t = "good" then some ⟨"alice", 10⟩ else none) 11 = .error .Unauthorized ∧
    verify_jwt (some "Bearer good") (fun t => if t = "good" then some ⟨"alice", 10⟩ else none) 11 = .error .Unauthorized ∧
    verify_jwt (some "Bearer bad") (fun t => if t = "good" then some ⟨"alice", 10⟩ else none) 11 =
      verify_jwt (some "Bearer good") (fun t => if t = "good" then some ⟨"alice", 10⟩ else none) 11 ∧
    (AppError.Unauthorized).into_response = (401, "Unauthorized - Invalid or missing JWT token") :=
  verify_jwt_unauthorized_uniform "Bearer bad" "Bearer good" "bad" "good"
    (fun t => if t = "good" then some ⟨"alice", 10⟩ else none) 11 ⟨"alice", 10⟩
    (by decide) (by decide) (by decide) (by decide) (by decide)

/-- C9: a request whose `Authorization` header is missing, or does not begin
with `"Bearer "`, gets the 400 `BadRequest` outcome (`"no auth"` /
`"no bearer"`), not the 401 `Unauthorized` outcome used for verification
failures and expired tokens. -/
theorem verify_jwt_missing_header_bad_request
    (from_token : String → Option Claims) (now : Int) (h : String)
    (hs : stripBearer h = none) :
    verify_jwt none from_token now = .error (.BadRequest "no auth") ∧
    verify_jwt (some h) from_token now = .error (.BadRequest "no bearer") ∧
    (AppError.BadRequest "no auth").into_response.1 = 400 ∧
    (AppError.BadRequest "no bearer").into_response.1 = 400 ∧
    (AppError.Unauthorized).into_response.1 = 401 ∧ (400 : Nat) ≠ 401 := by
  refine ⟨rfl, ?_, rfl, rfl, rfl, by decide⟩
  simp [verify_jwt, hs]

/-- Witness for C9 at a concrete malformed header. -/
theorem verify_jwt_missing_header_bad_request_witness :
    verify_jwt none (fun _ => none) 0 = .error (.BadRequest "no auth") ∧
    verify_jwt (some "Basic xyz") (fun _ => none) 0 = .error (.BadRequest "no bearer") ∧
    (AppError.BadRequest "no auth").into_response.1 = 400 ∧
    (AppError.BadRequest "no bearer").into_response.1 = 400 ∧
    (AppError.Unauthorized).into_response.1 = 401 ∧ (400 : Nat) ≠ 401 :=
  verify_jwt_missing_header_bad_request (fun _ => none) 0 "Basic xyz" (by decide)

/-- C10: token expiry uses a strict comparison (`Utc::now().timestamp() >
exp`): a verified token with `exp` equal to the current timestamp is
accepted, and a verified token is rejected as expired exactly when the
current time is strictly greater than `exp`. -/
theorem verify_jwt_expiry_strict (h t : String)
    (from_token : String → Option Claims) (now : Int) (c : Claims)
    (hs : stripBearer h = some t)
    (hok : from_token t = some c) :
    (now = c.exp → verify_jwt (some h) from_token now = .ok c.sub) ∧
    (verify_jwt (some h) from_token now = .error .Unauthorized ↔ now > c.exp) := by
  constructor
  · intro hnow
    simp [verify_jwt, is_expired, hs, hok, hnow]
  · by_cases hgt : now > c.exp
    · simp [verify_jwt, is_expired, hs, hok, hgt]
    · simp [verify_jwt, is_expired, hs, hok, hgt]

/-- Witness for C10: a token expiring exactly now is accepted. -/
theorem verify_jwt_expiry_strict_witness :
    verify_jwt (some "Bearer tok") (fun _ => some ⟨"bob", 42⟩) 42 = .ok "bob" :=
  (verify_jwt_expiry_strict "Bearer tok" "tok" (fun _ => some ⟨"bob", 42⟩) 42 ⟨"bob", 42⟩
    (by decide) (by decide)).1 (by decide)

/-! ### Helper lemmas on the authentication poll loop -/

theorem authLoop_allNone (cellAt : Nat → Option String)
    (h : ∀ j, cellAt j = none) :
    ∀ n k, k + n = 240 → authLoop cellAt k = (.timeout, 240) := by
  intro n
  induction n with
  | zero =>
    intro k hk
    have hk' : k = 240 := by omega
    subst hk'
    rw [authLoop]
    simp only [h 240]
    rw [if_pos (by simp only [pollTime, pollIntervalMs, deadlineMs]; omega)]
  | succ m ih =>
    intro k hk
    rw [authLoop]
    simp only [h k]
    rw [if_neg (by simp only [pollTime, pollIntervalMs, deadlineMs]; omega)]
    exact ih (k + 1) (by omega)

theorem authLoop_token (cellAt : Nat → Option String) (k : Nat) (t : String)
    (ht : cellAt k = some t) (hb : ∀ j, j < k → cellAt j = none) (hk : k ≤ 240) :
    ∀ n i, i + n = k → authLoop cellAt i = (.token t, k) := by
  intro n
  induction n with
  | zero =>
    intro i hi
    have hi' : i = k := by omega
    subst hi'
    rw [authLoop]
    simp [ht]
  | succ m ih =>
    intro i hi
    have hik : i < k := by omega
    rw [authLoop]
    simp only [hb i hik]
    rw [if_neg (by simp only [pollTime, pollIntervalMs, deadlineMs]; omega)]
    exact ih (i + 1) (by omega)

/-! ### Authentication handshake claims -/

/-- C6: with a cell that never receives a value, `authenticate` fails with
the timeout exactly at poll 240, whose time (120.5 s) is no earlier than
the 120 s deadline and no later than the deadline plus one 500 ms poll
interval; and a value stored at any poll up to 240 — even one past the
deadline — is returned as success in preference to the timeout check. -/
theorem authenticate_deadline (cellAt cellAt2 : Nat → Option String) (k : Nat) (t : String)
    (hnone : ∀ j, cellAt j = none)
    (ht : cellAt2 k = some t) (hb : ∀ j, j < k → cellAt2 j = none) (hk : k ≤ 240) :
    (authenticate cellAt = (.timeout, 240) ∧
      deadlineMs ≤ pollTime 240 ∧ pollTime 240 ≤ deadlineMs + pollIntervalMs) ∧
    authenticate cellAt2 = (.token t, k) :=
  ⟨⟨authLoop_allNone cellAt hnone 240 0 (by omega), by decide, by decide⟩,
   authLoop_token cellAt2 k t ht hb hk k 0 (by omega)⟩

/-- Witness for C6: an always-empty cell times out at poll 240; a cell full
at the first poll yields the token immediately. -/
theorem authenticate_deadline_witness :
    (authenticate (fun _ => none) = (.timeout, 240) ∧
      deadlineMs ≤ pollTime 240 ∧ pollTime 240 ≤ deadlineMs + pollIntervalMs) ∧
    authenticate (fun j => if j = 0 then some "tok" else none) = (.token "tok", 0) :=
  authenticate_deadline (fun _ => none) (fun j => if j = 0 then some "tok" else none) 0 "tok"
    (fun _ => rfl) rfl (fun j hj => absurd hj (Nat.not_lt_zero j)) (by omega)

/-- C1 counterexample: on an error callback the handler leaves the cell with
`none` — no failure outcome is stored (the cell cannot even represent one) —
and `authenticate` on a cell that never receives a value exits at poll 240
(the deadline) with the timeout, not at the first poll and not with a
provider-error outcome. -/
theorem callback_error_not_stored_cex :
    (callback_handler ⟨none, some "access_denied"⟩ true none).1 = none ∧
    authenticate (fun _ => none) = (.timeout, 240) ∧ (240 : Nat) ≠ 0 :=
  ⟨rfl, authLoop_allNone (fun _ => none) (fun _ => rfl) 240 0 (by omega), by decide⟩

/-- C1 amended: on receipt of an error parameter the callback handler
stores `params.access_token` — which is absent — so the cell keeps no
outcome, and returns the error page; `authenticate`, never observing a
value, runs on to the deadline and fails with the timeout (poll 240),
rather than failing within one poll interval with a provider error. -/
theorem callback_error_times_out (e : String) (store : Option String)
    (cellAt : Nat → Option String) (hcell : ∀ j, cellAt j = none) :
    callback_handler ⟨none, some e⟩ true store = (none, .errorPage e, true) ∧
    authenticate cellAt = (.timeout, 240) :=
  ⟨rfl, authLoop_allNone cellAt hcell 240 0 (by omega)⟩

/-- Witness for the amended C1 at a concrete error description. -/
theorem callback_error_times_out_witness :
    callback_handler ⟨none, some "denied"⟩ true none = (none, .errorPage "denied", true) ∧
    authenticate (fun _ => none) = (.timeout, 240) :=
  callback_error_times_out "denied" none (fun _ => none) (fun _ => rfl)

/-- C8 counterexample: the normal handshake flow — the provider's fragment
redirect (whose query carries no token) followed by the page script's
resubmission of the token — invokes the handler twice, and both invocations
write the cell: two writes in one handshake, refuting "written at most
once". -/
theorem tokenCell_two_writes_cex :
    runCallbacks [(⟨none, none⟩, true), (⟨some "tok", none⟩, true)] none = (some "tok", 2) ∧
    ¬ (2 : Nat) ≤ 1 :=
  ⟨rfl, by decide⟩

/-- C8 amended: the cell starts empty, but every callback-handler invocation
that acquires the lock performs a write (storing its `access_token`
parameter, possibly absent): over any sequence of invocations in one
handshake the number of writes equals the number of lock-acquiring
invocations — two in the normal redirect-then-resubmit flow, not at most
one. -/
theorem tokenCell_writes_eq_invocations (reqs : List (CallbackParams × Bool))
    (store : Option String) :
    (runCallbacks reqs store).2 = (reqs.filter (fun q => q.2)).length := by
  induction reqs generalizing store with
  | nil => rfl
  | cons q rest ih =>
    obtain ⟨⟨tok, err⟩, lock_ok⟩ := q
    cases lock_ok <;> cases err <;>
      simp [runCallbacks, callback_handler, List.filter_cons, ih] <;>
      omega

end SlaughterVote
